import Mathlib

/- Formal model of the microcli command-line core (src/cliparse.py together
with the argument-spec model of src/micro_inspect.py): the tokenizer
(`parsearg`, `parseargs`) and the binder (`matchargs`), embedded as pure Lean
functions, followed by theorems about their behavior. -/

namespace Microcli

/-- Python values that flow through the CLI core: the `Void.UNDEFINED`
sentinel used for "no default" (util.py / micro_inspect.py), booleans
(flag values), strings (option values and positionals) and integers
(default values such as `0`). -/
inductive Val where
  | undef
  | vbool (b : Bool)
  | vstr (s : String)
  | vint (n : Int)
deriving DecidableEq, Repr

/-- Model of micro_inspect.ArgKind (a Python `Flag` enum):
POSARG, KWARG, VARG, VARKW and AMBARG = POSARG|KWARG. AMBARG is a distinct
member, so `k == PosArg` is false for an ambiguous parameter, exactly as
Python `Flag` equality behaves. -/
inductive ArgKind where
  | posArg
  | kwArg
  | varg
  | varkw
  | ambArg
deriving DecidableEq, Repr

/-- One declared parameter: its name, kind and default value
(`Val.undef` models the `Undefined` sentinel meaning "no default"). -/
structure Param where
  name : String
  kind : ArgKind
  default : Val
deriving DecidableEq, Repr

/-- The argument-spec dictionary consumed by matchargs (cliparse.py lines
73-80): the fields are exactly the keys matchargs reads. `params` carries
the per-parameter data that `iterargspec` iterates. -/
structure ArgSpec where
  params : List Param
  hasvargs : Bool
  hasvarkw : Bool
  names : List String
  posxnames : List String
  ambnames : List String
  kwxnames : List String
  ambargco : Nat
  defaults : List (String × Val)
deriving DecidableEq, Repr

/-- Modelled from the spec: builds a well-formed ArgSpec from a declared
parameter list. micro_inspect.getfullargspec returns names/kinds/defaults
and the counts but omits the posxnames/ambnames/kwxnames keys that
matchargs reads; this builder derives every field the way micro_inspect's
accessors (posxargs, ambargs, kwxargs, argdefaults) would, given the
canonical Python ordering positional-only, ambiguous, keyword-only,
*args, **kwargs of `co_varnames`. -/
def mkargspec (ps : List Param) : ArgSpec where
  params := ps
  hasvargs := ps.any (fun p => decide (p.kind = ArgKind.varg))
  hasvarkw := ps.any (fun p => decide (p.kind = ArgKind.varkw))
  names := ps.map Param.name
  posxnames := (ps.filter (fun p => decide (p.kind = ArgKind.posArg))).map Param.name
  ambnames := (ps.filter (fun p => decide (p.kind = ArgKind.ambArg))).map Param.name
  kwxnames := (ps.filter (fun p => decide (p.kind = ArgKind.kwArg))).map Param.name
  ambargco := (ps.filter (fun p => decide (p.kind = ArgKind.ambArg))).length
  defaults := ps.map (fun p => (p.name, p.default))

/-- Modelled from the spec: `mui.iterargspec` is called by matchargs
(cliparse.py lines 81-83) as `for _, _, d, k, _ in mui.iterargspec(argspec)`
but is not defined anywhere in the repository; per the spec's data model it
iterates the declared parameters in order, yielding each one's default `d`
and kind `k` (the other tuple slots are ignored by matchargs). -/
def iterargspec (spec : ArgSpec) : List Param := spec.params

/-- COMMON_FLAGS (cliparse.py line 21): the universally recognized
help/debug flags, already normalized. -/
def COMMON_FLAGS : List String := ["d", "debug", "h", "help"]

/-- Python `u.startswith(o)`. -/
def pystartswith (u o : String) : Bool := o.data.isPrefixOf u.data

/-- `name.replace("-", "_")` as applied by parsearg (cliparse.py lines 29, 33). -/
def pyUnderscore (s : String) : String :=
  ⟨s.data.map (fun c => if c = '-' then '_' else c)⟩

/-- Character class `[a-zA-Z-]` used by the long-name regexes. -/
def isNameChar (c : Char) : Bool := c.isAlpha || c = '-'

/-- `shflag_p = ^-([a-zA-Z])` under Python `re.match`: anchored at the start
only, so it succeeds on any string beginning with a dash and one ASCII
letter, whatever follows. Returns the captured letter. -/
def shflagMatch : List Char → Option Char
  | '-' :: c :: _ => if c.isAlpha then some c else none
  | _ => none

/-- `lflag_p = ^--([a-zA-Z][-a-zA-Z]+)` under Python `re.match`: two dashes,
a letter, then a maximal nonempty run of letters/dashes; anchored at the
start only. Returns the captured name. -/
def lflagMatch : List Char → Option (List Char)
  | '-' :: '-' :: c :: rest =>
    if c.isAlpha then
      match rest.takeWhile isNameChar with
      | [] => none
      | run => some (c :: run)
    else none
  | _ => none

/-- `sharg_p = ^-([a-zA-Z]):(.+)` under Python `re.match`: dash, letter,
colon, then at least one non-newline character (Python `.` excludes
newlines); `(.+)` is the greedy run of non-newline characters. -/
def shargMatch : List Char → Option (Char × List Char)
  | '-' :: c :: ':' :: rest =>
    if c.isAlpha then
      match rest.takeWhile (fun x => decide (x ≠ '\n')) with
      | [] => none
      | v => some (c, v)
    else none
  | _ => none

/-- `larg_p = ^--([a-zA-Z][-a-zA-Z]+)=(.+)` under Python `re.match`:
two dashes, a letter, a nonempty run of letters/dashes (the run is maximal:
`=` is outside the class so no backtracking can shorten it), then `=` and
at least one non-newline character. -/
def largMatch : List Char → Option (List Char × List Char)
  | '-' :: '-' :: c :: rest =>
    if c.isAlpha then
      match rest.takeWhile isNameChar with
      | [] => none
      | run =>
        match rest.drop run.length with
        | '=' :: after =>
          match after.takeWhile (fun x => decide (x ≠ '\n')) with
          | [] => none
          | v => some (c :: run, v)
        | _ => none
    else none
  | _ => none

/-- parsearg (cliparse.py lines 24-36): try `shflag_p` or `lflag_p` first
(returning a flag with value True), else `sharg_p` or `larg_p` (returning
an option with its inline value), else classify the token as a positional,
returning `(None, arg)`. Captured names are normalized with
`replace("-", "_")`. -/
def parsearg (arg : String) : Option String × Val :=
  match shflagMatch arg.data with
  | some c => (some (pyUnderscore ⟨[c]⟩), Val.vbool true)
  | none =>
    match lflagMatch arg.data with
    | some g => (some (pyUnderscore ⟨g⟩), Val.vbool true)
    | none =>
      match shargMatch arg.data with
      | some (c, v) => (some (pyUnderscore ⟨[c]⟩), Val.vstr ⟨v⟩)
      | none =>
        match largMatch arg.data with
        | some (g, v) => (some (pyUnderscore ⟨g⟩), Val.vstr ⟨v⟩)
        | none => (none, Val.vstr arg)

/-- Python dict assignment `d[k] = v` on an association list with unique
keys: overwrite in place if the key exists, else append (insertion order
is preserved, as for Python dicts). -/
def alInsert : List (String × Val) → String → Val → List (String × Val)
  | [], k, v => [(k, v)]
  | (a, w) :: t, k, v =>
    if a = k then (a, v) :: t else (a, w) :: alInsert t k v

/-- Python dict lookup `d[k]`, `none` when the key is absent. -/
def alLookup : List (String × Val) → String → Option Val
  | [], _ => none
  | (a, w) :: t, k => if a = k then some w else alLookup t k

/-- One iteration of the parseargs loop (cliparse.py lines 46-53): an
unclassified token is appended to the positionals (the returned `val` is
the token itself in that branch), a classified one is stored in the
options dict, overwriting any earlier occurrence of the same name. -/
def parseargstep (acc : List String × List (String × Val)) (arg : String) :
    List String × List (String × Val) :=
  match parsearg arg with
  | (none, _) => (acc.1 ++ [arg], acc.2)
  | (some n, v) => (acc.1, alInsert acc.2 n v)

/-- parseargs (cliparse.py lines 39-55), the tokenizer: folds parsearg over
the whole argument vector (despite the comment at lines 41-42, no element
is stripped) and returns the positionals and the options dict. -/
def parseargs (argv : List String) : List String × List (String × Val) :=
  argv.foldl parseargstep ([], [])

/-- The binder's failure messages (cliparse.py lines 87, 91, 107, 112, 142,
146), one constructor per distinct f-string, carrying exactly the data the
f-string interpolates. -/
inductive BErr where
  | insufficientArguments
  | tooManyArguments
  | tooManyPositionals
  | missingDefault (p : String)
  | noUnambiguousMatch (o : String)
  | couldntMatchAll (l : List String)
deriving DecidableEq, Repr

/-- A Python exception escaping matchargs: `list.remove(x)` with `x` absent
raises ValueError; `d[k]` with `k` absent raises KeyError. -/
inductive PyExn where
  | valueError (s : String)
  | keyError (s : String)
deriving DecidableEq, Repr

/-- What a call of matchargs produces: a `(p_out, kw_out)` success pair, a
`(None, message)` failure, or an uncaught Python exception. -/
inductive BindResult where
  | ok (pos : List Val) (kw : List (String × Val))
  | err (e : BErr)
  | exn (e : PyExn)
deriving DecidableEq, Repr

/-- `unmatched.remove(x)`: remove the first occurrence, `none` (ValueError)
when absent. -/
def removeFirst? : List String → String → Option (List String)
  | [], _ => none
  | a :: t, x =>
    if a = x then some t
    else
      match removeFirst? t x with
      | some r => some (a :: r)
      | none => none

/-- `remove` at call sites where the element is known to be present (the
option-matching loop removes an element it just found in the list; the
try/except at cliparse.py lines 129-136 is unreachable). -/
def removeFirst (l : List String) (x : String) : List String :=
  match removeFirst? l x with
  | some r => r
  | none => l

/-- Outcome of the positional-matching while loop: the final states of the
(Python, in-place) `positionals` and `posnames` lists plus `p_out` and
`unmatched`, or a ValueError escape together with the `positionals` state
at raise time. -/
inductive PosLoopOut where
  | done (ps pns : List String) (pout : List Val) (unm : List String)
  | fail (e : PyExn) (ps : List String)
deriving DecidableEq, Repr

/-- The while loop of matchargs (cliparse.py lines 95-100). In the source,
`posnames = list(reversed(posxnames + ambnames))` and `positionals` is
reversed in place (line 96); each iteration pops the last element of both,
i.e. consumes the original sequences front to back. This function therefore
takes the two lists in original order; the in-place (reversed, popped)
list states it reports are the reverses of the unconsumed remainders.
`p_out.append(positionals.pop())` runs before `unmatched.remove(...)`, so
on a ValueError the positionals list has already lost its element. -/
def posloopRev : List String → List String → List Val → List String → PosLoopOut
  | v :: psR, n :: pnsR, pout, unm =>
    (match removeFirst? unm n with
     | some unm2 => posloopRev psR pnsR (pout ++ [Val.vstr v]) unm2
     | none => PosLoopOut.fail (PyExn.valueError n) psR.reverse)
  | psR, pnsR, pout, unm => PosLoopOut.done psR.reverse pnsR.reverse pout unm

/-- The default-backfill loop over the leftover posnames (cliparse.py lines
109-116): a parameter without a default aborts with the missing-default
message; otherwise its default is appended to `p_out` and the name removed
from `unmatched` — a removal that raises ValueError when the name is not
there, and a dict access that raises KeyError when the name has no entry. -/
def p1defaults (dfl : List (String × Val)) :
    List String → List Val → List String → Sum (List Val × List String) BindResult
  | [], pout, unm => Sum.inl (pout, unm)
  | p :: pns, pout, unm =>
    match alLookup dfl p with
    | none => Sum.inr (BindResult.exn (PyExn.keyError p))
    | some v =>
      if v = Val.undef then Sum.inr (BindResult.err (BErr.missingDefault p))
      else
        match removeFirst? unm p with
        | none => Sum.inr (BindResult.exn (PyExn.valueError p))
        | some unm2 => p1defaults dfl pns (pout ++ [v]) unm2

/-- The option-matching loop of matchargs (cliparse.py lines 120-142), in
dict insertion order. A common flag is stored first (line 121-122) but —
the branch being an `if`, not an `elif` — control still falls into the
chain below: exact unmatched name, else unique prefix of an unmatched name,
else absorb into kw_out when **kwargs exists, else fail with the generic
one-name message shared by the ambiguous and unknown cases. -/
def optloop (hv : Bool) :
    List (String × Val) → List (String × Val) → List String →
    Sum (List (String × Val) × List String) BErr
  | [], kwout, unm => Sum.inl (kwout, unm)
  | (o, v) :: rest, kwout, unm =>
    let kwout1 := if o ∈ COMMON_FLAGS then alInsert kwout o v else kwout
    if o ∈ unm then
      optloop hv rest (alInsert kwout1 o v) (removeFirst unm o)
    else
      match unm.filter (fun u => pystartswith u o) with
      | [mo] => optloop hv rest (alInsert kwout1 mo v) (removeFirst unm mo)
      | _ =>
        if hv then optloop hv rest (alInsert kwout1 o v) unm
        else Sum.inr (BErr.noUnambiguousMatch o)

/-- The final backfill loop of matchargs (cliparse.py lines 144-149) over
the names still unmatched: the first one lacking a default aborts with the
couldnt-match-all message formatting the whole remaining list; otherwise
each default is stored in kw_out. -/
def finloop (dfl : List (String × Val)) :
    List String → List (String × Val) → List String →
    Sum (List (String × Val)) BindResult
  | [], kwout, _ => Sum.inl kwout
  | u :: us, kwout, unmFull =>
    match alLookup dfl u with
    | none => Sum.inr (BindResult.exn (PyExn.keyError u))
    | some v =>
      if v = Val.undef then Sum.inr (BindResult.err (BErr.couldntMatchAll unmFull))
      else finloop dfl us (alInsert kwout u v) unmFull

/-- `minpos` (cliparse.py line 81): the number of parameters whose kind
equals POSARG (AMBARG does not, under Flag equality) and whose default is
the Undefined sentinel. -/
def codeminpos (spec : ArgSpec) : Nat :=
  (iterargspec spec).countP
    (fun p => decide (p.kind = ArgKind.posArg) && decide (p.default = Val.undef))

/-- `maxpos = ambco + minpos` (cliparse.py line 82). -/
def codemaxpos (spec : ArgSpec) : Nat := spec.ambargco + codeminpos spec

/-- `minkw` (cliparse.py line 83): parameters of kind KWARG without defaults. -/
def codeminkw (spec : ArgSpec) : Nat :=
  (iterargspec spec).countP
    (fun p => decide (p.kind = ArgKind.kwArg) && decide (p.default = Val.undef))

/-- `maxkw = minkw + ambco` (cliparse.py line 84). -/
def codemaxkw (spec : ArgSpec) : Nat := codeminkw spec + spec.ambargco

/-- `unmatched = list(names[:-1*(hasvargs + hasvarkw)])` (cliparse.py line
94): Python slicing with a negative stop drops that many trailing names —
but when neither variadic exists the stop is `-0`, and `names[:-0]` is
`names[:0] = []`, not the whole list. -/
def pyUnmatched (spec : ArgSpec) : List String :=
  let kvar := (if spec.hasvargs then 1 else 0) + (if spec.hasvarkw then 1 else 0)
  if kvar = 0 then [] else spec.names.take (spec.names.length - kvar)

/-- Phases after the arity guards (cliparse.py lines 94-153): compute
`unmatched`, run the positional while loop, handle leftovers (variadic
absorption at line 104 puts the already-reversed remnant back in input
order; line 107 returns too-many-positionals), then `bindrest`. The second
component of the result is the final state of the caller's `positionals`
list, which line 96 reversed in place and the loop popped from. -/
def matchtail (spec : ArgSpec) (options : List (String × Val))
    (positionals : List String) : BindResult × List String :=
  match posloopRev positionals (spec.posxnames ++ spec.ambnames) []
      (pyUnmatched spec) with
  | PosLoopOut.fail e st => (BindResult.exn e, st)
  | PosLoopOut.done st pnstate pout unm =>
    if st = [] then bindrest spec options st pnstate pout unm
    else if spec.hasvargs then
      bindrest spec options st pnstate (pout ++ st.reverse.map Val.vstr) unm
    else (BindResult.err BErr.tooManyPositionals, st)
where
  /-- Lines 109-153: default backfill for leftover positional names (the
  leftover `posnames` list is iterated in its in-place order, i.e. reversed
  declaration order), then the option loop, then the final keyword
  backfill, then success. -/
  bindrest (spec : ArgSpec) (options : List (String × Val)) (st : List String)
      (pnstate : List String) (pout : List Val) (unm : List String) :
      BindResult × List String :=
    match p1defaults spec.defaults pnstate pout unm with
    | Sum.inr r => (r, st)
    | Sum.inl (pout2, unm2) =>
      match optloop spec.hasvarkw options [] unm2 with
      | Sum.inr e => (BindResult.err e, st)
      | Sum.inl (kwout, unm3) =>
        match finloop spec.defaults unm3 kwout unm3 with
        | Sum.inr r => (r, st)
        | Sum.inl kwout2 => (BindResult.ok pout2 kwout2, st)

/-- matchargs (cliparse.py lines 58-153), the binder: the two arity guards
(lines 86-91, note the combined error for too many positionals or named),
then `matchtail`. Returns the result together with the final state of the
caller's `positionals` list (mutated in place from line 96 on). -/
def matchargs (positionals : List String) (options : List (String × Val))
    (spec : ArgSpec) : BindResult × List String :=
  if positionals.length < codeminpos spec ∨ options.length < codeminkw spec then
    (BindResult.err BErr.insufficientArguments, positionals)
  else if (codemaxpos spec < positionals.length ∧ spec.hasvargs = false) ∨
          (codemaxkw spec < options.length ∧ spec.hasvarkw = false) then
    (BindResult.err BErr.tooManyArguments, positionals)
  else matchtail spec options positionals

/-- Written from the spec's words, for comparison with the code only
(§3/§4.2): `minPositional` counts PositionalOnly and Ambiguous parameters
without defaults. -/
def specMinPos (ps : List Param) : Nat :=
  (ps.filter (fun p =>
    (decide (p.kind = ArgKind.posArg) || decide (p.kind = ArgKind.ambArg)) &&
    decide (p.default = Val.undef))).length

/-- The value carried by the last token of `argv` that produces the
normalized option name `n`, if any. -/
def pickFor (n : String) (a : String) : Option Val :=
  match parsearg a with
  | (some m, v) => if m = n then some v else none
  | (none, _) => none

/-- The last value written for option name `n` while tokenizing `argv`. -/
def lastOptValue (argv : List String) (n : String) : Option Val :=
  (argv.filterMap (pickFor n)).getLast?

/-- Left-biased choice on optional values. -/
def optOr (a b : Option Val) : Option Val :=
  match a with
  | some v => some v
  | none => b

/-! Concrete argument specs used in the theorems below. -/

/-- Two positional-only parameters, the second with a default. -/
def specC1 : ArgSpec :=
  mkargspec [⟨"x", ArgKind.posArg, Val.undef⟩, ⟨"y", ArgKind.posArg, Val.vstr "d"⟩]

/-- A single ambiguous parameter without a default. -/
def specC2 : ArgSpec := mkargspec [⟨"c", ArgKind.ambArg, Val.undef⟩]

/-- An ambiguous parameter with a default plus a variadic-positional. -/
def specC3 : ArgSpec :=
  mkargspec [⟨"a", ArgKind.ambArg, Val.vstr "z"⟩, ⟨"args", ArgKind.varg, Val.undef⟩]

/-- Two named-only parameters sharing the prefix `create`, plus **kwargs. -/
def specC4 : ArgSpec :=
  mkargspec [⟨"create_dir", ArgKind.kwArg, Val.vstr "1"⟩,
             ⟨"create_file", ArgKind.kwArg, Val.vstr "2"⟩,
             ⟨"opts", ArgKind.varkw, Val.undef⟩]

/-- Two named-only parameters sharing the prefix `create`, an ambiguous
parameter giving keyword capacity, a variadic-positional, and no **kwargs. -/
def specC4b : ArgSpec :=
  mkargspec [⟨"z", ArgKind.ambArg, Val.vstr "0"⟩,
             ⟨"create_dir", ArgKind.kwArg, Val.vstr "1"⟩,
             ⟨"create_file", ArgKind.kwArg, Val.vstr "2"⟩,
             ⟨"args", ArgKind.varg, Val.undef⟩]

/-- The spec of §8's default-backfill example: one ambiguous parameter
`count` defaulting to 0. -/
def specC5 : ArgSpec := mkargspec [⟨"count", ArgKind.ambArg, Val.vint 0⟩]

/-- One required positional-only parameter plus a variadic-positional. -/
def specC8 : ArgSpec :=
  mkargspec [⟨"x", ArgKind.posArg, Val.undef⟩, ⟨"args", ArgKind.varg, Val.undef⟩]

/-- Two required positional-only parameters, no variadics (§8's arity
examples). -/
def specW2 : ArgSpec :=
  mkargspec [⟨"a", ArgKind.posArg, Val.undef⟩, ⟨"b", ArgKind.posArg, Val.undef⟩]

/-! Claim theorems (closed evaluations first). -/

/-- Claim C1 (code_bug evidence): with two positional-only parameters and
no variadics, `unmatched` is computed as `names[:-0] = []`, so binding one
positional calls `[].remove("x")` and matchargs escapes with a ValueError —
an unstructured exception, not a member of any closed error-variant set. -/
theorem c1_bind_raises_valueerror :
    matchargs ["a"] [] specC1 = (BindResult.exn (PyExn.valueError "x"), []) := by
  decide

/-- Claim C3 (code_bug evidence): for a spec not declaring `help`, the
universal flag is stored at cliparse.py lines 121-122 but the missing
`elif` lets control fall into the prefix chain, which rejects the call
with the generic unmatched-option error instead of succeeding. -/
theorem c3_common_flag_rejected :
    matchargs [] [("help", Val.vbool true)] specC3 =
      (BindResult.err (BErr.noUnambiguousMatch "help"), []) := by
  decide

/-- Claim C5 (code_bug evidence): the spec's own default-backfill example —
one ambiguous parameter `count` defaulting to 0 — raises ValueError instead
of succeeding, because `unmatched = names[:-0] = []` and the backfill at
line 116 removes `count` from the empty list. -/
theorem c5_default_backfill_raises :
    matchargs [] [] specC5 = (BindResult.exn (PyExn.valueError "count"), []) := by
  decide

/-- Claim C6 (code_bug evidence): `-x:value` and `--create-new=value` are
matched by the unanchored flag regexes tried first, so both come back as
bare flags with value True and the inline values are lost; the claim says
they are options bound to the string value. -/
theorem c6_inline_value_tokens :
    parsearg "-x:value" = (some "x", Val.vbool true) ∧
    parsearg "--create-new=value" = (some "create_new", Val.vbool true) := by
  decide

/-- Claim C2 counterexample: for a spec with one ambiguous parameter and no
default, the claim's `minPos` is 1, so `bind([], {})` should be
InsufficientArguments; the code counts only PositionalOnly parameters, the
guard passes, and the call fails later with the missing-default error. -/
theorem c2_arity_counterexample :
    specMinPos specC2.params = 1 ∧
    (List.length ([] : List String)) < specMinPos specC2.params ∧
    matchargs [] [] specC2 = (BindResult.err (BErr.missingDefault "c"), []) ∧
    (matchargs [] [] specC2).fst ≠ BindResult.err BErr.insufficientArguments := by
  decide

/-- Claim C4 counterexample: with declared names create_dir and create_file
and a variadic-named parameter, the option `create` — a strict prefix of
both unmatched names — does not fail with AmbiguousOption: it is absorbed
verbatim into the output and binding succeeds. -/
theorem c4_ambiguous_counterexample :
    matchargs [] [("create", Val.vstr "x")] specC4 =
      (BindResult.ok []
        [("create", Val.vstr "x"), ("create_dir", Val.vstr "1"),
         ("create_file", Val.vstr "2")], []) := by
  decide

/-- Claim C7 counterexample: the spec's last-write-wins example tokens
`--x=1` and `--x=2` match none of the four token shapes (a long name needs
at least two name characters before `=`), so both are positionals and the
options mapping is empty, not `{x: "2"}`. -/
theorem c7_last_write_counterexample :
    parseargs ["--x=1", "--x=2"] = (["--x=1", "--x=2"], []) := by
  decide

/-- Claim C8 counterexample: a successful bind leaves the caller's
positionals list changed — `["a", "b", "c"]` has become `["c", "b"]` —
because matchargs reverses it in place and pops the consumed elements. -/
theorem c8_mutation_counterexample :
    (matchargs ["a", "b", "c"] [] specC8).snd ≠ ["a", "b", "c"] := by
  decide

/-- Claim C8 (amended): matchargs mutates its positionals input. With spec
`[x: PositionalOnly, *args]`, binding `["a","b","c"]` succeeds — `x = "a"`
and the variadic absorbs `["b","c"]` in order — yet the caller's list ends
as `["c","b"]`, the reversed unconsumed remnant. -/
theorem c8_mutation_amended :
    matchargs ["a", "b", "c"] [] specC8 =
      (BindResult.ok [Val.vstr "a", Val.vstr "b", Val.vstr "c"] [], ["c", "b"]) := by
  decide

/-! Helper lemmas shared by the remaining claim theorems. -/

theorem alLookup_alInsert (l : List (String × Val)) (k : String) (v : Val)
    (n : String) :
    alLookup (alInsert l k v) n = if n = k then some v else alLookup l n := by
  induction l with
  | nil =>
    by_cases h : k = n
    · simp [alInsert, alLookup, h]
    · simp [alInsert, alLookup, h, Ne.symm h]
  | cons hd tl ih =>
    obtain ⟨a, w⟩ := hd
    simp only [alInsert]
    by_cases hak : a = k
    · rw [if_pos hak]
      subst hak
      by_cases han : a = n
      · simp [alLookup, han]
      · simp [alLookup, han, Ne.symm han]
    · rw [if_neg hak]
      by_cases han : a = n
      · have hnk : ¬(n = k) := fun hh => hak (han.trans hh)
        simp [alLookup, han, hnk]
      · simp [alLookup, han, ih]

theorem getLast?_cons_optOr (v : Val) (l : List Val) :
    (v :: l).getLast? = optOr l.getLast? (some v) := by
  cases l with
  | nil => rfl
  | cons w t =>
    rw [List.getLast?_cons_cons]
    cases h : (w :: t).getLast? with
    | none =>
      exact absurd (List.getLast?_eq_none_iff.mp h) (by simp)
    | some x => simp [optOr]

theorem optOr_some_left (a : Option Val) (v : Val) (b : Option Val) :
    optOr (optOr a (some v)) b = optOr a (some v) := by
  cases a <;> simp [optOr]

theorem parseargs_foldl_fst (argv : List String) :
    ∀ acc : List String × List (String × Val),
      (List.foldl parseargstep acc argv).fst =
        acc.fst ++ argv.filter (fun a => decide ((parsearg a).fst = none)) := by
  induction argv with
  | nil => intro acc; simp
  | cons a t ih =>
    intro acc
    rw [List.foldl_cons, ih]
    rcases hpa : parsearg a with ⟨o, v⟩
    cases o with
    | none => simp [parseargstep, hpa, List.filter_cons]
    | some m => simp [parseargstep, hpa, List.filter_cons]

theorem length_filter_add {α : Type} (l : List α) (p : α → Bool) :
    (l.filter p).length + (l.filter (fun a => !(p a))).length = l.length := by
  induction l with
  | nil => rfl
  | cons a t ih =>
    cases h : p a <;> simp [List.filter_cons, h] <;> omega

theorem parseargs_lookup_aux (argv : List String) :
    ∀ (acc : List String × List (String × Val)) (n : String),
      alLookup (List.foldl parseargstep acc argv).snd n =
        optOr (lastOptValue argv n) (alLookup acc.snd n) := by
  induction argv with
  | nil => intro acc n; simp [lastOptValue, optOr]
  | cons a t ih =>
    intro acc n
    rw [List.foldl_cons, ih]
    rcases hpa : parsearg a with ⟨o, v⟩
    cases o with
    | none =>
      have hpick : pickFor n a = none := by simp [pickFor, hpa]
      simp [parseargstep, hpa, lastOptValue, List.filterMap_cons, hpick]
    | some m =>
      by_cases hmn : m = n
      · subst hmn
        have hpick : pickFor m a = some v := by simp [pickFor, hpa]
        have hlast : lastOptValue (a :: t) m =
            optOr (lastOptValue t m) (some v) := by
          simp [lastOptValue, List.filterMap_cons, hpick, getLast?_cons_optOr]
        rw [hlast, optOr_some_left]
        simp [parseargstep, hpa, alLookup_alInsert]
      · have hpick : pickFor n a = none := by simp [pickFor, hpa, hmn]
        have hlast : lastOptValue (a :: t) n = lastOptValue t n := by
          simp [lastOptValue, List.filterMap_cons, hpick]
        have hnm : ¬(n = m) := fun hh => hmn hh.symm
        rw [hlast]
        simp [parseargstep, hpa, alLookup_alInsert, hnm]

theorem p1defaults_inr (dfl : List (String × Val)) :
    ∀ (pns : List String) (pout : List Val) (unm : List String) (r : BindResult),
      p1defaults dfl pns pout unm = Sum.inr r →
      (∃ p, r = BindResult.err (BErr.missingDefault p)) ∨
      (∃ e, r = BindResult.exn e) := by
  intro pns
  induction pns with
  | nil => intro pout unm r h; simp [p1defaults] at h
  | cons p pns ih =>
    intro pout unm r h
    rw [p1defaults] at h
    split at h
    · injection h with h2
      exact Or.inr ⟨_, h2.symm⟩
    · split at h
      · injection h with h2
        exact Or.inl ⟨p, h2.symm⟩
      · split at h
        · injection h with h2
          exact Or.inr ⟨_, h2.symm⟩
        · exact ih _ _ _ h

theorem optloop_inr (hv : Bool) :
    ∀ (os kwout : List (String × Val)) (unm : List String) (e : BErr),
      optloop hv os kwout unm = Sum.inr e →
      ∃ o, e = BErr.noUnambiguousMatch o := by
  intro os
  induction os with
  | nil => intro kwout unm e h; simp [optloop] at h
  | cons ov rest ih =>
    obtain ⟨o, v⟩ := ov
    intro kwout unm e h
    simp only [optloop] at h
    split at h
    · exact ih _ _ _ h
    · split at h
      · exact ih _ _ _ h
      · split at h
        · exact ih _ _ _ h
        · injection h with h2
          exact ⟨o, h2.symm⟩

theorem finloop_inr (dfl : List (String × Val)) :
    ∀ (us : List String) (kwout : List (String × Val)) (unmFull : List String)
      (r : BindResult),
      finloop dfl us kwout unmFull = Sum.inr r →
      (∃ l, r = BindResult.err (BErr.couldntMatchAll l)) ∨
      (∃ e, r = BindResult.exn e) := by
  intro us
  induction us with
  | nil => intro kwout unmFull r h; simp [finloop] at h
  | cons u us ih =>
    intro kwout unmFull r h
    rw [finloop] at h
    split at h
    · injection h with h2
      exact Or.inr ⟨_, h2.symm⟩
    · split at h
      · injection h with h2
        exact Or.inl ⟨unmFull, h2.symm⟩
      · exact ih _ _ _ h

theorem bindrest_fst_ne (spec : ArgSpec) (options : List (String × Val))
    (st pnstate : List String) (pout : List Val) (unm : List String) :
    (matchtail.bindrest spec options st pnstate pout unm).fst ≠
      BindResult.err BErr.insufficientArguments ∧
    (matchtail.bindrest spec options st pnstate pout unm).fst ≠
      BindResult.err BErr.tooManyArguments := by
  rcases hp : p1defaults spec.defaults pnstate pout unm with pr | r
  · obtain ⟨pout2, unm2⟩ := pr
    rcases ho : optloop spec.hasvarkw options [] unm2 with kr | e
    · obtain ⟨kwout, unm3⟩ := kr
      rcases hf : finloop spec.defaults unm3 kwout unm3 with kwout2 | r
      · simp [matchtail.bindrest, hp, ho, hf]
      · rcases finloop_inr spec.defaults unm3 kwout unm3 r hf with ⟨l, rfl⟩ | ⟨e, rfl⟩ <;>
          simp [matchtail.bindrest, hp, ho, hf]
    · obtain ⟨o, rfl⟩ := optloop_inr spec.hasvarkw options [] unm2 e ho
      simp [matchtail.bindrest, hp, ho]
  · rcases p1defaults_inr spec.defaults pnstate pout unm r hp with ⟨p, rfl⟩ | ⟨e, rfl⟩ <;>
      simp [matchtail.bindrest, hp]

theorem matchtail_fst_ne (spec : ArgSpec) (options : List (String × Val))
    (positionals : List String) :
    (matchtail spec options positionals).fst ≠
      BindResult.err BErr.insufficientArguments ∧
    (matchtail spec options positionals).fst ≠
      BindResult.err BErr.tooManyArguments := by
  rcases hp : posloopRev positionals (spec.posxnames ++ spec.ambnames) []
      (pyUnmatched spec) with ⟨st, pnstate, pout, unm⟩ | ⟨e, st⟩
  · by_cases hst : st = []
    · simp only [matchtail, hp, if_pos hst]
      exact bindrest_fst_ne spec options st pnstate pout unm
    · cases hvg : spec.hasvargs
      · simp [matchtail, hp, hst, hvg]
      · simp only [matchtail, hp, if_neg hst, hvg, if_pos rfl]
        exact bindrest_fst_ne spec options st pnstate
          (pout ++ st.reverse.map Val.vstr) unm
  · simp [matchtail, hp]

/-- When the default phase succeeds and the option loop fails, bindrest
returns that failure with the positionals state untouched. -/
theorem bindrest_opterr (spec : ArgSpec) (options : List (String × Val))
    (st pnstate : List String) (pout : List Val) (unm : List String)
    (pout2 : List Val) (unm2 : List String) (e : BErr)
    (hp : p1defaults spec.defaults pnstate pout unm = Sum.inl (pout2, unm2))
    (ho : optloop spec.hasvarkw options [] unm2 = Sum.inr e) :
    matchtail.bindrest spec options st pnstate pout unm =
      (BindResult.err e, st) := by
  simp only [matchtail.bindrest, hp, ho]

/-! Remaining claim theorems. -/

/-- Claim C2 (amended): the first failure is the combined message
"insufficient arguments", produced exactly when the positional count is
below the code's minPos — which counts only PositionalOnly parameters
without defaults, not Ambiguous ones — or the option count is below minKw;
past that check, the combined message "too many arguments" (not a distinct
too-many-positionals error) is produced exactly when the positionals exceed
maxPos with no variadic-positional or the options exceed maxKw with no
variadic-named; both bounds inclusive. -/
theorem c2_arity_errors (positionals : List String)
    (options : List (String × Val)) (spec : ArgSpec) :
    ((matchargs positionals options spec).fst =
        BindResult.err BErr.insufficientArguments ↔
      positionals.length < codeminpos spec ∨ options.length < codeminkw spec) ∧
    ((matchargs positionals options spec).fst =
        BindResult.err BErr.tooManyArguments ↔
      ¬(positionals.length < codeminpos spec ∨ options.length < codeminkw spec) ∧
      ((codemaxpos spec < positionals.length ∧ spec.hasvargs = false) ∨
       (codemaxkw spec < options.length ∧ spec.hasvarkw = false))) := by
  by_cases h1 : positionals.length < codeminpos spec ∨
      options.length < codeminkw spec
  · rw [matchargs, if_pos h1]
    constructor
    · simp [h1]
    · simp [h1]
  · rw [matchargs, if_neg h1]
    by_cases h2 : (codemaxpos spec < positionals.length ∧ spec.hasvargs = false) ∨
        (codemaxkw spec < options.length ∧ spec.hasvarkw = false)
    · rw [if_pos h2]
      constructor
      · simp [h1]
      · simp [h1, h2]
    · rw [if_neg h2]
      have hne := matchtail_fst_ne spec options positionals
      constructor
      · simp [hne.1, h1]
      · simp [hne.2, h2]

/-- Claim C2 witness: with two required positional-only parameters, zero
positionals trigger "insufficient arguments" and three trigger the combined
"too many arguments". -/
theorem c2_arity_witness :
    (matchargs [] [] specW2).fst = BindResult.err BErr.insufficientArguments ∧
    (matchargs ["a", "b", "c"] [] specW2).fst =
      BindResult.err BErr.tooManyArguments :=
  ⟨(c2_arity_errors [] [] specW2).1.mpr (by decide),
   (c2_arity_errors ["a", "b", "c"] [] specW2).2.mpr (by decide)⟩

/-- Claim C7 (amended): last-write-wins does hold in general — for every
input sequence and option name, the tokenizer's options mapping holds the
value produced by the last token yielding that name. -/
theorem c7_last_write_wins (argv : List String) (n : String) :
    alLookup (parseargs argv).snd n = lastOptValue argv n := by
  rw [parseargs, parseargs_lookup_aux argv ([], []) n]
  cases h : lastOptValue argv n <;> simp [optOr, alLookup]

/-- Claim C7 witness: tokenizing `-x` twice leaves `x` bound to the value
of the last occurrence. -/
theorem c7_last_write_wins_witness :
    lastOptValue ["-x", "-x"] "x" = some (Val.vbool true) ∧
    alLookup (parseargs ["-x", "-x"]).snd "x" = some (Val.vbool true) :=
  ⟨by decide, by rw [c7_last_write_wins ["-x", "-x"] "x"]; decide⟩

/-- Claim C9 (confirmed): tokenization is total — every token is classified,
and the tokens matching no option shape are returned verbatim, in order, as
the positionals. -/
theorem c9_tokenize_total (argv : List String) :
    (parseargs argv).fst =
      argv.filter (fun a => decide ((parsearg a).fst = none)) ∧
    ∀ a : String, (parsearg a).fst = none → (parsearg a).snd = Val.vstr a := by
  constructor
  · rw [parseargs, parseargs_foldl_fst]
    rfl
  · intro a h
    rw [parsearg] at h ⊢
    revert h
    cases shflagMatch a.data with
    | some c => intro h; simp at h
    | none =>
      cases lflagMatch a.data with
      | some g => intro h; simp at h
      | none =>
        cases shargMatch a.data with
        | some cv =>
          obtain ⟨c, v⟩ := cv
          intro h
          simp at h
        | none =>
          cases largMatch a.data with
          | some gv =>
            obtain ⟨g, v⟩ := gv
            intro h
            simp at h
          | none => intro h; rfl

/-- Claim C9 witness: a concrete vector — `prog` and `out.txt` are kept
verbatim as positionals, `-x` is classified as an option. -/
theorem c9_tokenize_total_witness :
    (parseargs ["prog", "-x", "out.txt"]).fst = ["prog", "out.txt"] ∧
    (parsearg "out.txt").snd = Val.vstr "out.txt" :=
  ⟨by rw [(c9_tokenize_total ["prog", "-x", "out.txt"]).1]; decide,
   (c9_tokenize_total ["prog", "-x", "out.txt"]).2 "out.txt" (by decide)⟩

/-- Claim C10 (confirmed): each input token is classified exactly once —
the positional count plus the option-classified count equals the input
length; the first element is not skipped (a head token matching no option
shape heads the positional output); and the positionals are exactly the
unclassified tokens, verbatim and in input order. -/
theorem c10_tokenize_partition (argv : List String) :
    (parseargs argv).fst.length +
      (argv.filter (fun a => decide ((parsearg a).fst ≠ none))).length =
      argv.length ∧
    (∀ (a : String) (t : List String), argv = a :: t →
      (parsearg a).fst = none → (parseargs argv).fst.head? = some a) ∧
    (parseargs argv).fst =
      argv.filter (fun a => decide ((parsearg a).fst = none)) := by
  have hfst : (parseargs argv).fst =
      argv.filter (fun a => decide ((parsearg a).fst = none)) := by
    rw [parseargs, parseargs_foldl_fst]
    rfl
  refine ⟨?_, ?_, hfst⟩
  · rw [hfst]
    have hcong : argv.filter (fun a => decide ((parsearg a).fst ≠ none)) =
        argv.filter (fun a => !(decide ((parsearg a).fst = none))) := by
      simp [ne_eq, decide_not]
    rw [hcong]
    exact length_filter_add argv (fun a => decide ((parsearg a).fst = none))
  · intro a t hargv ha
    rw [hfst, hargv, List.filter_cons]
    simp [ha]

/-- Claim C10 witness: `prog` (the would-be program name) is not skipped:
it heads the positionals, and counts add up for a concrete vector. -/
theorem c10_tokenize_partition_witness :
    (parseargs ["prog", "--debug"]).fst.head? = some "prog" ∧
    (parseargs ["prog", "--debug"]).fst.length +
      ((["prog", "--debug"] : List String).filter
        (fun a => decide ((parsearg a).fst ≠ none))).length = 2 :=
  ⟨(c10_tokenize_partition ["prog", "--debug"]).2.1 "prog" ["--debug"] rfl
      (by decide),
   (c10_tokenize_partition ["prog", "--debug"]).1⟩

/-- Claim C4 (amended): without a variadic-named parameter, an option that
is a strict prefix of more than one unmatched name — here create_dir and
create_file — makes bind fail with the generic one-name message (the same
one used for unknown options), carrying no candidate list. -/
theorem c4_ambiguous_generic_error (o : String) (v : Val)
    (h1 : pystartswith "create_dir" o = true)
    (h2 : pystartswith "create_file" o = true)
    (h3 : o ≠ "create_dir") (h4 : o ≠ "create_file") :
    matchargs [] [(o, v)] specC4b =
      (BindResult.err (BErr.noUnambiguousMatch o), []) := by
  have hopt : optloop false [(o, v)] [] ["create_dir", "create_file"] =
      Sum.inr (BErr.noUnambiguousMatch o) := by
    simp only [optloop]
    have hnotmem : o ∉ (["create_dir", "create_file"] : List String) := by
      simp [h3, h4]
    rw [if_neg hnotmem]
    have hfil : (["create_dir", "create_file"] : List String).filter
        (fun u => pystartswith u o) = ["create_dir", "create_file"] := by
      simp [List.filter, h1, h2]
    rw [hfil]
    rfl
  have hstep : matchargs [] [(o, v)] specC4b =
      matchtail.bindrest specC4b [(o, v)] [] ["z"] []
        ["z", "create_dir", "create_file"] := rfl
  rw [hstep]
  exact bindrest_opterr specC4b [(o, v)] [] ["z"] []
    ["z", "create_dir", "create_file"] [Val.vstr "0"]
    ["create_dir", "create_file"] (BErr.noUnambiguousMatch o) rfl hopt

/-- Claim C4 witness: the spec's own example option `create` produces the
generic unmatched-option failure. -/
theorem c4_ambiguous_generic_error_witness :
    matchargs [] [("create", Val.vstr "x")] specC4b =
      (BindResult.err (BErr.noUnambiguousMatch "create"), []) :=
  c4_ambiguous_generic_error "create" (Val.vstr "x") (by decide) (by decide)
    (by decide) (by decide)

end Microcli
